import Mathlib

/-!
Verification development for the chit-fund back-office REST API.

The Express route handlers are shallowly embedded: the Prisma-backed
relational store becomes an explicit `Db` record of entity lists, each
handler becomes a pure function `Db → ... → Db × Resp` that mirrors the
route body statement by statement (find, guard, create/update/delete,
counter maintenance), and JS numbers carrying money or rates become `ℚ`
(all persisted money columns are INTEGER, commission rates are doubles in
[0,1]; exact rationals are a faithful superset for the arithmetic the
handlers perform).  JS dates are reduced to the integer quantities the
handlers actually inspect (UTC day index for grouping keys, year/month for
the days-in-month computation).  Falsy-default expressions `x || d` on
numeric-or-null values are modelled by `jsOrQ`, which — like JS — also
falls back when `x` is `0`.
-/

namespace BhavaniChit

/-- Enum `EntryType` of `passbook_entries.type`. -/
inductive EntryType
  | generated
  | manual
deriving DecidableEq, Repr

/-- Enum `AuctionStatus` of `auctions.status`. -/
inductive AuctionStatus
  | scheduled
  | completed
  | cancelled
deriving DecidableEq, Repr

/-- Enum `PaymentMethod`. -/
inductive PaymentMethod
  | cash
  | bankTransfer
  | upi
  | cheque
  | notPaid
deriving DecidableEq, Repr

/-- Enum `CustomerStatus` (shared by customers and customer_schemes). -/
inductive CustomerStatus
  | active
  | completed
  | defaulted
deriving DecidableEq, Repr

/-- Row of `chit_schemes` (fields the verified handlers read). -/
structure ChitScheme where
  id : Nat
  numberOfMembers : Int
  membersEnrolled : Int
  commissionRate : Option ℚ := none
  dailyPayment : Option ℚ := none
deriving DecidableEq, Repr

/-- Row of `customers` (fields the verified handlers read). -/
structure Customer where
  id : Nat
  balance : ℚ
  amountPerDay : ℚ
  duration : ℚ
  status : CustomerStatus := .active
deriving DecidableEq, Repr

/-- Row of `customer_schemes`, the enrollment junction table. -/
structure CustomerScheme where
  id : Nat
  customerId : Nat
  schemeId : Nat
  amountPerDay : ℚ
  duration : ℚ
  balance : ℚ
deriving DecidableEq, Repr

/-- Row of `collections`.  `date` is a UTC day index. -/
structure CollectionRow where
  id : Nat
  customerId : Nat
  amountPaid : ℚ
  collectorId : Nat
  date : Int
  balanceRemaining : ℚ
  paymentMethod : PaymentMethod
deriving DecidableEq, Repr

/-- Row of `passbook_entries` as used by `routes/passbook.js` (the
`customerId` column generation); `customerSchemeId` carries the junction
reference added by the later migration, unset by the manual-entry route. -/
structure PassbookEntry where
  id : Nat
  customerId : Nat
  month : Int
  date : Int
  dailyPayment : ℚ
  amount : ℚ
  chittiAmount : ℚ
  type : EntryType
  customerSchemeId : Option Nat := none
deriving DecidableEq, Repr

/-- Row of `auctions` (fields the delete handler reads). -/
structure Auction where
  id : Nat
  chitSchemeId : Nat
  status : AuctionStatus
deriving DecidableEq, Repr

/-- The relational store: one list per table plus a fresh-id counter
standing in for generated row ids. -/
structure Db where
  schemes : List ChitScheme
  customers : List Customer
  customerSchemes : List CustomerScheme
  collections : List CollectionRow
  passbook : List PassbookEntry
  auctions : List Auction
  nextId : Nat
deriving DecidableEq, Repr

/-- HTTP response abstraction: status code plus the handler's message. -/
structure Resp where
  status : Nat
  message : String
deriving DecidableEq, Repr

/-- Models the JS expression `x || d` for a numeric-or-null `x`: JS falls
back to `d` both when `x` is absent (`null`/`undefined`) and when it is
`0`, since `0` is falsy. -/
def jsOrQ (v : Option ℚ) (d : ℚ) : ℚ :=
  match v with
  | none => d
  | some x => if x = 0 then d else x

/-- Truthiness of a numeric-or-absent JS value: absent and `0` are falsy. -/
def jsTruthyQ (v : Option ℚ) : Bool :=
  match v with
  | none => false
  | some x => decide (x ≠ 0)

/-- Balance of the customer with id `cid`, when present
(`prisma.customer.findUnique` projection used throughout the theorems). -/
def customerBalance (db : Db) (cid : Nat) : Option ℚ :=
  (db.customers.find? (fun c => c.id == cid)).map (fun c => c.balance)

/-- The `prisma.customer.update` call writing the `balance` field. -/
def updateCustomerBalance (db : Db) (cid : Nat) (b : ℚ) : Db :=
  { db with customers :=
      db.customers.map (fun c => if c.id == cid then { c with balance := b } else c) }

/-- Request body of `POST /collections`. -/
structure CollectionReq where
  customerId : Nat
  amountPaid : ℚ
  date : Int
  balanceRemaining : ℚ
  paymentMethod : PaymentMethod
deriving DecidableEq, Repr

/-- Handler of `POST /collections` (`routes/collections.js`): verify the
customer exists (else 400 "Customer not found"), create the collection row,
then overwrite the customer's `balance` with the caller-supplied
`balanceRemaining`.  `uid` is `req.user.id`, the recording collector. -/
def recordCollection (db : Db) (uid : Nat) (r : CollectionReq) : Db × Resp :=
  match db.customers.find? (fun c => c.id == r.customerId) with
  | none => (db, ⟨400, "Customer not found"⟩)
  | some _ =>
    let row : CollectionRow :=
      { id := db.nextId
        customerId := r.customerId
        amountPaid := r.amountPaid
        collectorId := uid
        date := r.date
        balanceRemaining := r.balanceRemaining
        paymentMethod := r.paymentMethod }
    let db1 := { db with collections := db.collections ++ [row], nextId := db.nextId + 1 }
    (updateCustomerBalance db1 r.customerId r.balanceRemaining,
      ⟨201, "Collection recorded successfully"⟩)

/-- Handler of `DELETE /collections/:id`: 404 when absent; otherwise delete
the row and restore the owning customer's balance by adding back the
deleted `amountPaid` (`newBalance = currentBalance + amountPaid`).  The
customer object is the one fetched together with the collection; a broken
customer reference surfaces as the catch-all 500 after the row was already
deleted, exactly as in the JS control flow. -/
def deleteCollection (db : Db) (id : Nat) : Db × Resp :=
  match db.collections.find? (fun c => c.id == id) with
  | none => (db, ⟨404, "Collection not found"⟩)
  | some ex =>
    let db1 := { db with collections := db.collections.eraseP (fun c => c.id == id) }
    match db.customers.find? (fun c => c.id == ex.customerId) with
    | none => (db1, ⟨500, "Failed to delete collection"⟩)
    | some cust =>
      (updateCustomerBalance db1 ex.customerId (cust.balance + ex.amountPaid),
        ⟨200, "Collection deleted successfully"⟩)

/-- Handler of `DELETE /auctions/:id` (`routes/auctions.js`): 404 when the
auction is absent, 400 when its status is COMPLETED (row untouched),
otherwise the row is deleted. -/
def deleteAuction (db : Db) (id : Nat) : Db × Resp :=
  match db.auctions.find? (fun a => a.id == id) with
  | none => (db, ⟨404, "Auction not found"⟩)
  | some a =>
    if a.status = AuctionStatus.completed then
      (db, ⟨400, "Cannot delete completed auction"⟩)
    else
      ({ db with auctions := db.auctions.eraseP (fun b => b.id == id) },
        ⟨200, "Auction deleted successfully"⟩)

/-- Patch body of `PUT /passbook/:id`; absent fields leave the column
unchanged (Prisma semantics for fields missing from `data`). -/
structure PassbookPatch where
  month : Option Int := none
  date : Option Int := none
  dailyPayment : Option ℚ := none
  amount : Option ℚ := none
  chittiAmount : Option ℚ := none
deriving DecidableEq, Repr

/-- Applies a passbook patch to a row, Prisma-update style. -/
def applyPassbookPatch (p : PassbookPatch) (e : PassbookEntry) : PassbookEntry :=
  { e with
    month := p.month.getD e.month
    date := p.date.getD e.date
    dailyPayment := p.dailyPayment.getD e.dailyPayment
    amount := p.amount.getD e.amount
    chittiAmount := p.chittiAmount.getD e.chittiAmount }

/-- Handler of `PUT /passbook/:id`: 404 when absent; 400 and no change when
the entry's type is GENERATED ("Only allow updating manual entries");
otherwise apply the patch. -/
def updatePassbookEntry (db : Db) (id : Nat) (p : PassbookPatch) : Db × Resp :=
  match db.passbook.find? (fun e => e.id == id) with
  | none => (db, ⟨404, "Passbook entry not found"⟩)
  | some e =>
    if e.type = EntryType.generated then
      (db, ⟨400, "Cannot update generated entries"⟩)
    else
      ({ db with passbook :=
          db.passbook.map (fun x => if x.id == id then applyPassbookPatch p x else x) },
        ⟨200, "Passbook entry updated successfully"⟩)

/-- Handler of `DELETE /passbook/:id`: 404 when absent; 400 and no change
when the entry's type is GENERATED; otherwise delete the row. -/
def deletePassbookEntry (db : Db) (id : Nat) : Db × Resp :=
  match db.passbook.find? (fun e => e.id == id) with
  | none => (db, ⟨404, "Passbook entry not found"⟩)
  | some e =>
    if e.type = EntryType.generated then
      (db, ⟨400, "Cannot delete generated entries"⟩)
    else
      ({ db with passbook := db.passbook.eraseP (fun x => x.id == id) },
        ⟨200, "Passbook entry deleted successfully"⟩)

/-- Request body of `POST /passbook` (manual entry creation). -/
structure PassbookReq where
  customerId : Nat
  month : Int
  date : Int
  dailyPayment : ℚ
  amount : ℚ
  chittiAmount : ℚ
  type : EntryType := .manual
deriving DecidableEq, Repr

/-- The duplicate-check predicate of `POST /passbook`:
`{customerId, month: parseInt(month), type: 'MANUAL'}`. -/
def manualKeyed (cid : Nat) (m : Int) (e : PassbookEntry) : Bool :=
  e.customerId == cid && e.month == m && decide (e.type = EntryType.manual)

/-- Handler of `POST /passbook`: verify the customer exists (else 400),
reject with 400 when a MANUAL entry for the same `(customerId, month)`
already exists, otherwise create the row. -/
def createPassbookEntry (db : Db) (r : PassbookReq) : Db × Resp :=
  match db.customers.find? (fun c => c.id == r.customerId) with
  | none => (db, ⟨400, "Customer not found"⟩)
  | some _ =>
    match db.passbook.find? (manualKeyed r.customerId r.month) with
    | some _ => (db, ⟨400, "Manual entry already exists for this month"⟩)
    | none =>
      let e : PassbookEntry :=
        { id := db.nextId
          customerId := r.customerId
          month := r.month
          date := r.date
          dailyPayment := r.dailyPayment
          amount := r.amount
          chittiAmount := r.chittiAmount
          type := r.type }
      ({ db with passbook := db.passbook ++ [e], nextId := db.nextId + 1 },
        ⟨201, "Passbook entry created successfully"⟩)

/-- List-level effect of the `membersEnrolled` increment/decrement. -/
def incSchemes (sid : Nat) (d : Int) (l : List ChitScheme) : List ChitScheme :=
  l.map (fun s =>
    if s.id == sid then { s with membersEnrolled := s.membersEnrolled + d } else s)

/-- Increment (or, with a negative delta, decrement) `membersEnrolled` of
the scheme with id `sid`, modelling Prisma's
`update({where: {id}, data: {membersEnrolled: {increment/decrement: 1}}})`. -/
def incrementMembers (db : Db) (sid : Nat) (d : Int) : Db :=
  { db with schemes := incSchemes sid d db.schemes }

/-- The `membersEnrolled` counter of scheme `sid`, when the scheme exists. -/
def schemeMembers (db : Db) (sid : Nat) : Option Int :=
  (db.schemes.find? (fun s => s.id == sid)).map (fun s => s.membersEnrolled)

/-- Request body of `POST /customers` (create a customer enrolled into one
scheme; fields the handler's arithmetic uses). -/
structure EnrollNewReq where
  schemeId : Nat
  amountPerDay : ℚ
  duration : ℚ
  status : CustomerStatus := .active
deriving DecidableEq, Repr

/-- Handler of `POST /customers` (`routes/customers.js`): verify the scheme
exists (else 400), reject with 400 "Chit scheme is full" when
`membersEnrolled >= numberOfMembers`, otherwise create the customer with
`balance = amountPerDay * duration` together with its junction row, then
increment the scheme's `membersEnrolled` by 1. -/
def createCustomer (db : Db) (r : EnrollNewReq) : Db × Resp :=
  match db.schemes.find? (fun s => s.id == r.schemeId) with
  | none => (db, ⟨400, "Chit scheme not found"⟩)
  | some scheme =>
    if scheme.membersEnrolled ≥ scheme.numberOfMembers then
      (db, ⟨400, "Chit scheme is full"⟩)
    else
      let totalAmount := r.amountPerDay * r.duration
      let cust : Customer :=
        { id := db.nextId
          balance := totalAmount
          amountPerDay := r.amountPerDay
          duration := r.duration
          status := r.status }
      let junction : CustomerScheme :=
        { id := db.nextId + 1
          customerId := db.nextId
          schemeId := r.schemeId
          amountPerDay := r.amountPerDay
          duration := r.duration
          balance := totalAmount }
      let db1 := { db with
        customers := db.customers ++ [cust]
        customerSchemes := db.customerSchemes ++ [junction]
        nextId := db.nextId + 2 }
      (incrementMembers db1 r.schemeId 1, ⟨201, "Customer created successfully"⟩)

/-- Request body of `POST /chit-schemes/:id/members` (add an existing
customer to a scheme); `schemeId` is the `:id` path parameter. -/
structure AddMemberReq where
  schemeId : Nat
  customerId : Nat
  amountPerDay : ℚ
  duration : ℚ
deriving DecidableEq, Repr

/-- Handler of `POST /chit-schemes/:id/members` (`routes/chitSchemes.js`),
in the source's check order: scheme exists (404), capacity
(`membersEnrolled >= numberOfMembers` → 400 "Chit scheme is full"),
customer exists (404), duplicate junction row for the pair (400 "Customer
is already enrolled in this scheme"); on success create the junction row
with `balance = amountPerDay * duration` and increment `membersEnrolled`. -/
def addMemberToScheme (db : Db) (r : AddMemberReq) : Db × Resp :=
  match db.schemes.find? (fun s => s.id == r.schemeId) with
  | none => (db, ⟨404, "Chit scheme not found"⟩)
  | some scheme =>
    if scheme.membersEnrolled ≥ scheme.numberOfMembers then
      (db, ⟨400, "Chit scheme is full"⟩)
    else
      match db.customers.find? (fun c => c.id == r.customerId) with
      | none => (db, ⟨404, "Customer not found"⟩)
      | some _ =>
        match db.customerSchemes.find?
            (fun cs => cs.customerId == r.customerId && cs.schemeId == r.schemeId) with
        | some _ => (db, ⟨400, "Customer is already enrolled in this scheme"⟩)
        | none =>
          let junction : CustomerScheme :=
            { id := db.nextId
              customerId := r.customerId
              schemeId := r.schemeId
              amountPerDay := r.amountPerDay
              duration := r.duration
              balance := r.amountPerDay * r.duration }
          let db1 := { db with
            customerSchemes := db.customerSchemes ++ [junction]
            nextId := db.nextId + 1 }
          (incrementMembers db1 r.schemeId 1, ⟨201, "Customer added to scheme successfully"⟩)

/-- Handler of `DELETE /customers/:id`: 404 when absent; 400 when the
customer still owns collections or any of its enrollments owns passbook
entries; otherwise delete the customer (cascading its junction rows) and
decrement `membersEnrolled` of every scheme it was enrolled in. -/
def deleteCustomer (db : Db) (cid : Nat) : Db × Resp :=
  match db.customers.find? (fun c => c.id == cid) with
  | none => (db, ⟨404, "Customer not found"⟩)
  | some _ =>
    if 0 < (db.collections.filter (fun r => r.customerId == cid)).length then
      (db, ⟨400, "Cannot delete customer with existing collections"⟩)
    else
      let custSchemes := db.customerSchemes.filter (fun cs => cs.customerId == cid)
      if custSchemes.any (fun cs =>
          0 < (db.passbook.filter (fun e => e.customerSchemeId == some cs.id)).length) then
        (db, ⟨400, "Cannot delete customer with existing passbook entries"⟩)
      else
        let db1 := { db with
          customers := db.customers.eraseP (fun c => c.id == cid)
          customerSchemes := db.customerSchemes.filter (fun cs => !(cs.customerId == cid)) }
        (custSchemes.foldl (fun d cs => incrementMembers d cs.schemeId (-1)) db1,
          ⟨200, "Customer deleted successfully"⟩)

/-- Patch body of `PUT /customers/:id`.  The route passes `req.body`
through to the update, so a `balance` value supplied by the caller reaches
the database; absent fields (and explicit nulls, which the route filters
out) leave the column unchanged. -/
structure CustomerPatch where
  amountPerDay : Option ℚ := none
  duration : Option ℚ := none
  balance : Option ℚ := none
  status : Option CustomerStatus := none
deriving DecidableEq, Repr

/-- Applies a customer patch to a row, Prisma-update style. -/
def applyCustomerPatch (p : CustomerPatch) (c : Customer) : Customer :=
  { c with
    amountPerDay := p.amountPerDay.getD c.amountPerDay
    duration := p.duration.getD c.duration
    balance := p.balance.getD c.balance
    status := p.status.getD c.status }

/-- The `updateData` mutation of `PUT /customers/:id`: when the patch
carries a truthy `amountPerDay` or `duration` the balance is recomputed as
`totalAmount - paidAmount` with `totalAmount = amountPerDay * duration`
and `paidAmount = totalAmount - existing.balance` (the recompute from
`routes/customers.js` lines 325-332). -/
def effectivePatch (p : CustomerPatch) (ex : Customer) : CustomerPatch :=
  if jsTruthyQ p.amountPerDay || jsTruthyQ p.duration then
    let amountPerDay := jsOrQ p.amountPerDay ex.amountPerDay
    let duration := jsOrQ p.duration ex.duration
    let totalAmount := amountPerDay * duration
    let paidAmount := totalAmount - ex.balance
    { p with balance := some (totalAmount - paidAmount) }
  else p

/-- Handler of `PUT /customers/:id`: 404 when absent, otherwise apply the
(possibly balance-recomputing) patch to the customer row. -/
def updateCustomer (db : Db) (cid : Nat) (p : CustomerPatch) : Db × Resp :=
  match db.customers.find? (fun c => c.id == cid) with
  | none => (db, ⟨404, "Customer not found"⟩)
  | some ex =>
    ({ db with customers :=
        db.customers.map (fun c =>
          if c.id == cid then applyCustomerPatch (effectivePatch p ex) c else c) },
      ⟨200, "Customer updated successfully"⟩)

/-- Operations of the enrollment subsystem quantified over by the
`membersEnrolled` invariant: both Enroll variants and Unenroll. -/
inductive EnrollOp
  | enrollNew (r : EnrollNewReq)
  | addMember (r : AddMemberReq)
  | unenroll (cid : Nat)
deriving Repr

/-- One enrollment-subsystem step (response discarded). -/
def stepOp (db : Db) (op : EnrollOp) : Db :=
  match op with
  | .enrollNew r => (createCustomer db r).1
  | .addMember r => (addMemberToScheme db r).1
  | .unenroll cid => (deleteCustomer db cid).1

/-- Runs a sequence of enrollment operations. -/
def runOps (db : Db) (ops : List EnrollOp) : Db :=
  ops.foldl stepOp db

/-- Scheme-table sanity, list level: ids are unique (primary key) and
every scheme satisfies `membersEnrolled ≤ numberOfMembers`. -/
def SchemesOk (l : List ChitScheme) : Prop :=
  (l.map (fun s => s.id)).Nodup ∧ ∀ s ∈ l, s.membersEnrolled ≤ s.numberOfMembers

/-- Scheme-table sanity of the store. -/
def SchemeInv (db : Db) : Prop :=
  SchemesOk db.schemes

/-- Day-of-week of a UTC day index, as JS `Date.prototype.getDay` computes
it (0 = Sunday; day 0 = 1970-01-01 was a Thursday = 4). -/
def jsGetDay (d : Int) : Int :=
  (d + 4) % 7

/-- Grouping key for `groupBy=day`: the UTC calendar day itself
(`date.toISOString().split('T')[0]` is a bijective recoding of the UTC day
index into `YYYY-MM-DD`). -/
def dayKey (d : Int) : Int := d

/-- Grouping key for `groupBy=week`: the Sunday-aligned start of the week,
`weekStart.setDate(date.getDate() - date.getDay())`. -/
def weekKey (d : Int) : Int :=
  d - jsGetDay d

/-- One time bucket of the revenue report: first-encounter key plus the
running `totalRevenue` and `totalCollections` accumulators.  The nested
by-scheme / by-payment-method breakdowns of the source are not modelled;
no verified claim mentions them. -/
structure Bucket where
  key : Int
  totalRevenue : ℚ
  totalCollections : Nat
deriving DecidableEq, Repr

/-- Folding one collection row into the bucket list: update the existing
bucket for `k` in place, or append a fresh bucket at the end — JS object
insertion order, which `Object.values` later preserves. -/
def bucketUpd (k : Int) (amt : ℚ) : List Bucket → List Bucket
  | [] => [⟨k, amt, 1⟩]
  | b :: bs =>
    if b.key = k then
      { b with totalRevenue := b.totalRevenue + amt,
               totalCollections := b.totalCollections + 1 } :: bs
    else
      b :: bucketUpd k amt bs

/-- Input row of the revenue report: a collection's date (UTC day index)
and `amountPaid`. -/
structure RevRow where
  date : Int
  amountPaid : ℚ
deriving DecidableEq, Repr

/-- The grouping loop of `GET /reports/revenue` for a fixed key function:
`collections.forEach` accumulating into `groupedData`, then
`Object.values`. -/
def revenueBuckets (keyOf : Int → Int) (rows : List RevRow) : List Bucket :=
  rows.foldl (fun bs r => bucketUpd (keyOf r.date) r.amountPaid bs) []

/-- Total `amountPaid` of the rows whose key is `k`. -/
def keyedRevenue (keyOf : Int → Int) (rows : List RevRow) (k : Int) : ℚ :=
  ((rows.filter (fun r => keyOf r.date = k)).map (fun r => r.amountPaid)).sum

/-- Number of rows whose key is `k`. -/
def keyedCount (keyOf : Int → Int) (rows : List RevRow) (k : Int) : Nat :=
  (rows.filter (fun r => keyOf r.date = k)).length

/-- Scheme view consumed by the passbook-stats reducer (the
`include: {scheme: {select: ...}}` projection). -/
structure StatsScheme where
  id : Nat
  commissionRate : Option ℚ
  dailyPayment : Option ℚ
deriving DecidableEq, Repr

/-- Active customer together with the schemes of its enrollments, as the
`activeCustomers` query returns them. -/
structure StatsCustomer where
  id : Nat
  schemes : List StatsScheme
deriving DecidableEq, Repr

/-- Passbook entry joined through its customer-scheme, reduced to the three
fields the reducer reads: `entry.customerScheme.customer.id`,
`entry.customerScheme.scheme.id` and `entry.amount`.  The list stands for
`todayPassbookEntries` (today's and yesterday's entries). -/
structure StatsEntry where
  customerId : Nat
  schemeId : Nat
  amount : ℚ
deriving DecidableEq, Repr

/-- One backlog record pushed by the reducer. -/
structure BacklogItem where
  customerId : Nat
  schemeId : Nat
  expectedAmount : ℚ
  actualAmount : ℚ
  backlogAmount : ℚ
  commissionRate : ℚ
deriving DecidableEq, Repr

/-- Accumulator and result of the passbook-stats reduction. -/
structure PassbookStats where
  totalExpectedDaily : ℚ := 0
  totalActualDaily : ℚ := 0
  totalDailyProfits : ℚ := 0
  totalMonthlyProfits : ℚ := 0
  backlogs : List BacklogItem := []
  paidCount : Nat := 0
  pendingCount : Nat := 0
deriving DecidableEq, Repr

/-- Leap-year predicate of the Gregorian calendar. -/
def isLeapYear (y : Int) : Bool :=
  (y % 4 == 0 && !(y % 100 == 0)) || (y % 400 == 0)

/-- Number of days of month `m` (0-based, JS style) of year `y`, as
`new Date(y, m + 1, 0).getDate()` computes it. -/
def daysInMonth (y m : Int) : Nat :=
  if m == 1 then (if isLeapYear y then 29 else 28)
  else if m == 3 || m == 5 || m == 8 || m == 10 then 30
  else 31

/-- Inner body of the passbook-stats double `forEach`: fold one
enrollment (customer `c`, scheme `s`) into the accumulator.  `expectedDaily
= scheme.dailyPayment || 0`, `commissionRate = scheme.commissionRate ||
0.05` (JS falsy default, so a rate explicitly set to `0` also falls back),
`actualDaily` from the matching entry else `0`, `backlog = expectedDaily -
actualDaily` pushed only when positive, `dailyProfit = actualDaily *
commissionRate`. -/
def statsStep (entries : List StatsEntry) (acc : PassbookStats)
    (c : StatsCustomer) (s : StatsScheme) : PassbookStats :=
  let expectedDaily := jsOrQ s.dailyPayment 0
  let commissionRate := jsOrQ s.commissionRate (5 / 100)
  let actualDaily :=
    match entries.find? (fun e => e.customerId == c.id && e.schemeId == s.id) with
    | some e => e.amount
    | none => 0
  let backlog := expectedDaily - actualDaily
  { acc with
    totalExpectedDaily := acc.totalExpectedDaily + expectedDaily
    totalActualDaily := acc.totalActualDaily + actualDaily
    totalDailyProfits := acc.totalDailyProfits + actualDaily * commissionRate
    backlogs :=
      if 0 < backlog then
        acc.backlogs ++ [⟨c.id, s.id, expectedDaily, actualDaily, backlog, commissionRate⟩]
      else acc.backlogs
    paidCount := if 0 < actualDaily then acc.paidCount + 1 else acc.paidCount
    pendingCount := if 0 < actualDaily then acc.pendingCount else acc.pendingCount + 1 }

/-- The `GET /reports/passbook-stats` computation: reduce every (active
customer, enrolled scheme) pair, then project
`totalMonthlyProfits = totalDailyProfits * daysInCurrentMonth` for the
target date's year `y` and 0-based month `m`. -/
def passbookStats (custs : List StatsCustomer) (entries : List StatsEntry)
    (y m : Int) : PassbookStats :=
  let acc := custs.foldl
    (fun acc c => c.schemes.foldl (fun acc s => statsStep entries acc c s) acc)
    {}
  { acc with totalMonthlyProfits := acc.totalDailyProfits * (daysInMonth y m : ℚ) }

/-- Modelled from the spec: the claim's reading of the profit accumulation,
"dailyProfit = actualDaily × commissionRate with commissionRate defaulting
to 0.05 when the scheme has none set" — i.e. the default applies only to an
absent rate, a rate explicitly set (even to `0`) is used as-is. -/
def specDailyProfits (custs : List StatsCustomer) (entries : List StatsEntry) : ℚ :=
  (custs.map (fun c =>
    (c.schemes.map (fun s =>
      let actualDaily :=
        match entries.find? (fun e => e.customerId == c.id && e.schemeId == s.id) with
        | some e => e.amount
        | none => 0
      actualDaily * (s.commissionRate.getD (5 / 100)))).sum)).sum

/-- The flat list of enrollment pairs in traversal order, used to state
the aggregate characterization of `passbookStats`. -/
def enrollmentPairs (custs : List StatsCustomer) : List (StatsCustomer × StatsScheme) :=
  custs.flatMap (fun c => c.schemes.map (fun s => (c, s)))

/-- Effective per-enrollment quantities of the reducer: expected daily,
actual daily and effective commission rate. -/
def enrollView (entries : List StatsEntry) (p : StatsCustomer × StatsScheme) : ℚ × ℚ × ℚ :=
  let expectedDaily := jsOrQ p.2.dailyPayment 0
  let commissionRate := jsOrQ p.2.commissionRate (5 / 100)
  let actualDaily :=
    match entries.find? (fun e => e.customerId == p.1.id && e.schemeId == p.2.id) with
    | some e => e.amount
    | none => 0
  (expectedDaily, actualDaily, commissionRate)

/-- Finding in a list mapped by a conditional in-place update: the lookup
commutes with the update when the update preserves the predicate. -/
theorem find?_map_ite {α : Type} (p : α → Bool) (upd : α → α)
    (hupd : ∀ a, p (upd a) = p a) :
    ∀ l : List α,
      (l.map (fun a => if p a then upd a else a)).find? p = (l.find? p).map upd
  | [] => rfl
  | a :: l => by
    by_cases h : p a
    · simp only [List.map_cons, h, if_true]
      rw [List.find?_cons_of_pos _ (by simp [hupd, h]), List.find?_cons_of_pos _ h]
      rfl
    · have hb : p a = false := by simpa using h
      simp only [List.map_cons, hb, if_false]
      rw [List.find?_cons_of_neg _ (by simp [hb]), List.find?_cons_of_neg _ (by simp [hb])]
      exact find?_map_ite p upd hupd l

/-- With unique keys, any list member carrying the searched key is the
element `find?` returns. -/
theorem find?_nodup_unique {α : Type} (key : α → Nat) (k : Nat) :
    ∀ (l : List α), (l.map key).Nodup →
      ∀ s, l.find? (fun a => key a == k) = some s →
      ∀ t ∈ l, key t = k → t = s
  | [], _, s, hs, t, ht, _ => by cases ht
  | a :: l, hnd, s, hs, t, ht, htk => by
    rw [List.map_cons, List.nodup_cons] at hnd
    by_cases h : key a = k
    · rw [List.find?_cons_of_pos _ (by simpa using h)] at hs
      cases hs
      rcases List.mem_cons.mp ht with h1 | h1
      · exact h1
      · exact absurd (show key a ∈ List.map key l by
          rw [← htk.trans h.symm]
          exact List.mem_map_of_mem key h1) hnd.1
    · rw [List.find?_cons_of_neg _ (by simpa using h)] at hs
      rcases List.mem_cons.mp ht with h1 | h1
      · exact absurd (h1 ▸ htk) h
      · exact find?_nodup_unique key k l hnd.2 s hs t h1 htk

/-- Appending past a list with no match leaves the lookup to the suffix. -/
theorem find?_append_none {α : Type} (p : α → Bool) (l₁ l₂ : List α)
    (h : l₁.find? p = none) : (l₁ ++ l₂).find? p = l₂.find? p := by
  rw [List.find?_append, h]
  rfl

/-- Overwriting the balance rewrites exactly the looked-up balance. -/
theorem customerBalance_updateCustomerBalance (db : Db) (cid : Nat) (b : ℚ) :
    customerBalance (updateCustomerBalance db cid b) cid
      = (customerBalance db cid).map (fun _ => b) := by
  unfold customerBalance updateCustomerBalance
  rw [show (db.customers.map
        (fun c : Customer => if c.id == cid then { c with balance := b } else c)).find?
        (fun c => c.id == cid)
      = (db.customers.find? (fun c => c.id == cid)).map
        (fun c : Customer => { c with balance := b }) from
    find?_map_ite (fun c => c.id == cid) (fun c : Customer => { c with balance := b })
      (fun _ => rfl) _]
  cases db.customers.find? (fun c => c.id == cid) <;> rfl

/-- The collection row `POST /collections` inserts. -/
abbrev mkRow (db : Db) (uid : Nat) (r : CollectionReq) : CollectionRow :=
  { id := db.nextId, customerId := r.customerId, amountPaid := r.amountPaid,
    collectorId := uid, date := r.date, balanceRemaining := r.balanceRemaining,
    paymentMethod := r.paymentMethod }

/-- The store after the insert of `POST /collections`, before the balance
overwrite. -/
abbrev recDb (db : Db) (uid : Nat) (r : CollectionReq) : Db :=
  { db with collections := db.collections ++ [mkRow db uid r], nextId := db.nextId + 1 }

/-- Unfolding `recordCollection` on the success path. -/
theorem recordCollection_found (db : Db) (uid : Nat) (r : CollectionReq) (cust : Customer)
    (h : db.customers.find? (fun c => c.id == r.customerId) = some cust) :
    recordCollection db uid r =
      (updateCustomerBalance (recDb db uid r) r.customerId r.balanceRemaining,
        ⟨201, "Collection recorded successfully"⟩) := by
  simp only [recordCollection, h]

/-- Unfolding `deleteCollection` on the success path. -/
theorem deleteCollection_found (db : Db) (id : Nat) (ex : CollectionRow) (cust : Customer)
    (h1 : db.collections.find? (fun c => c.id == id) = some ex)
    (h2 : db.customers.find? (fun c => c.id == ex.customerId) = some cust) :
    deleteCollection db id =
      (updateCustomerBalance
        { db with collections := db.collections.eraseP (fun c => c.id == id) }
        ex.customerId (cust.balance + ex.amountPaid),
        ⟨200, "Collection deleted successfully"⟩) := by
  simp only [deleteCollection, h1, h2]

/-- Concrete one-customer store exercising the collection round trip. -/
def c1Db : Db :=
  { schemes := []
    customers := [{ id := 1, balance := 45000, amountPerDay := 500, duration := 90 }]
    customerSchemes := []
    collections := []
    passbook := []
    auctions := []
    nextId := 0 }

/-- Claim C1 is false as stated: with the customer's balance at 45000,
`RecordCollection(amountPaid = 500, balanceRemaining = 0)` immediately
followed by `DeleteCollection` of that record leaves the balance at
`0 + 500 = 500`, not at the pre-record value 45000 — the round trip
restores the balance for all `X` and `B` only if `B + X` equals it. -/
theorem C1_counterexample :
    customerBalance c1Db 1 = some 45000 ∧
      customerBalance
        (deleteCollection (recordCollection c1Db 7
          { customerId := 1, amountPaid := 500, date := 0, balanceRemaining := 0,
            paymentMethod := .cash }).1 0).1 1 = some 500 ∧
      (500 : ℚ) ≠ 45000 := by
  refine ⟨rfl, ?_, by norm_num⟩
  norm_num [c1Db, recordCollection, deleteCollection, updateCustomerBalance, customerBalance,
    List.find?, List.eraseP]

/-- Claim C1 (amended): `RecordCollection(amountPaid = X, balanceRemaining
= B)` immediately followed by `DeleteCollection` of that record sets the
customer's balance to `B + X`; the pre-record balance `b` is restored
exactly when the caller supplied `B + X = b`, not for all `X` and `B`. -/
theorem C1_record_then_delete_balance (db : Db) (uid : Nat) (r : CollectionReq) (c : Customer)
    (hc : db.customers.find? (fun x => x.id == r.customerId) = some c)
    (hfresh : db.collections.find? (fun row => row.id == db.nextId) = none) :
    customerBalance (deleteCollection (recordCollection db uid r).1 db.nextId).1 r.customerId
        = some (r.balanceRemaining + r.amountPaid) ∧
      (customerBalance (deleteCollection (recordCollection db uid r).1 db.nextId).1 r.customerId
          = customerBalance db r.customerId
        ↔ r.balanceRemaining + r.amountPaid = c.balance) := by
  have hfind : (updateCustomerBalance (recDb db uid r) r.customerId
      r.balanceRemaining).collections.find? (fun x => x.id == db.nextId)
      = some (mkRow db uid r) := by
    show (db.collections ++ [mkRow db uid r]).find? (fun x => x.id == db.nextId)
      = some (mkRow db uid r)
    rw [find?_append_none _ _ _ hfresh]
    exact List.find?_cons_of_pos _ (by simp)
  have hcust : (updateCustomerBalance (recDb db uid r) r.customerId
      r.balanceRemaining).customers.find? (fun x => x.id == (mkRow db uid r).customerId)
      = some { c with balance := r.balanceRemaining } := by
    show (db.customers.map
        (fun x : Customer =>
          if x.id == r.customerId then { x with balance := r.balanceRemaining } else x)).find?
        (fun x => x.id == r.customerId) = some { c with balance := r.balanceRemaining }
    rw [find?_map_ite (fun x : Customer => x.id == r.customerId)
      (fun x : Customer => { x with balance := r.balanceRemaining }) (fun _ => rfl), hc]
    rfl
  have hbal : customerBalance (deleteCollection (recordCollection db uid r).1 db.nextId).1
      r.customerId = some (r.balanceRemaining + r.amountPaid) := by
    rw [recordCollection_found db uid r c hc]
    show customerBalance
      (deleteCollection (updateCustomerBalance (recDb db uid r) r.customerId
        r.balanceRemaining) db.nextId).1 r.customerId
      = some (r.balanceRemaining + r.amountPaid)
    rw [deleteCollection_found _ db.nextId (mkRow db uid r)
      { c with balance := r.balanceRemaining } hfind hcust]
    show (((db.customers.map
        (fun x : Customer =>
          if x.id == r.customerId then { x with balance := r.balanceRemaining } else x)).map
        (fun x : Customer =>
          if x.id == r.customerId then
            { x with balance := r.balanceRemaining + r.amountPaid } else x)).find?
        (fun x => x.id == r.customerId)).map (fun x => x.balance)
      = some (r.balanceRemaining + r.amountPaid)
    rw [find?_map_ite (fun x : Customer => x.id == r.customerId)
      (fun x : Customer => { x with balance := r.balanceRemaining + r.amountPaid })
      (fun _ => rfl)]
    rw [find?_map_ite (fun x : Customer => x.id == r.customerId)
      (fun x : Customer => { x with balance := r.balanceRemaining }) (fun _ => rfl), hc]
    rfl
  refine ⟨hbal, ?_⟩
  rw [hbal]
  unfold customerBalance
  rw [hc]
  simp [eq_comm]

/-- Concrete request matching the spec's 45000/500/44500 scenario. -/
def c1Req : CollectionReq :=
  { customerId := 1, amountPaid := 500, date := 0, balanceRemaining := 44500,
    paymentMethod := .cash }

/-- Witness: the C1 round-trip theorem at the spec's concrete scenario
(balance 45000, `amountPaid = 500`, `balanceRemaining = 44500`). -/
theorem C1_record_then_delete_balance_witness :
    customerBalance (deleteCollection (recordCollection c1Db 7 c1Req).1 c1Db.nextId).1
        c1Req.customerId = some (c1Req.balanceRemaining + c1Req.amountPaid) ∧
      (customerBalance (deleteCollection (recordCollection c1Db 7 c1Req).1 c1Db.nextId).1
          c1Req.customerId = customerBalance c1Db c1Req.customerId
        ↔ c1Req.balanceRemaining + c1Req.amountPaid
            = (⟨1, 45000, 500, 90, .active⟩ : Customer).balance) :=
  C1_record_then_delete_balance c1Db 7 c1Req ⟨1, 45000, 500, 90, .active⟩ rfl rfl

/-- Claim C3: `RecordCollection` fails with the "Customer not found"
rejection and creates no row when the customer is absent; otherwise it
creates exactly one collection row carrying the request's fields and
overwrites the owning customer's balance with the caller-supplied
`balanceRemaining`. -/
theorem C3_recordCollection_spec (db : Db) (uid : Nat) (r : CollectionReq) :
    (db.customers.find? (fun x => x.id == r.customerId) = none →
      recordCollection db uid r = (db, ⟨400, "Customer not found"⟩)) ∧
    (∀ c, db.customers.find? (fun x => x.id == r.customerId) = some c →
      (recordCollection db uid r).1.collections = db.collections ++ [mkRow db uid r] ∧
      customerBalance (recordCollection db uid r).1 r.customerId = some r.balanceRemaining ∧
      (recordCollection db uid r).2 = ⟨201, "Collection recorded successfully"⟩) := by
  constructor
  · intro h
    simp only [recordCollection, h]
  · intro c hc
    rw [recordCollection_found db uid r c hc]
    refine ⟨rfl, ?_, rfl⟩
    rw [customerBalance_updateCustomerBalance]
    show ((db.customers.find? (fun x => x.id == r.customerId)).map
        (fun x => x.balance)).map _ = some r.balanceRemaining
    rw [hc]
    rfl

/-- Concrete one-customer store for the C3 witness. -/
def c3Db : Db :=
  { schemes := []
    customers := [{ id := 2, balance := 9000, amountPerDay := 100, duration := 90 }]
    customerSchemes := []
    collections := []
    passbook := []
    auctions := []
    nextId := 5 }

/-- Concrete request for the C3 witness. -/
def c3Req : CollectionReq :=
  { customerId := 2, amountPaid := 100, date := 3, balanceRemaining := 8900,
    paymentMethod := .upi }

/-- Witness: the C3 theorem's success branch at a concrete store. -/
theorem C3_recordCollection_spec_witness :
    (recordCollection c3Db 7 c3Req).1.collections = c3Db.collections ++ [mkRow c3Db 7 c3Req] ∧
      customerBalance (recordCollection c3Db 7 c3Req).1 c3Req.customerId
        = some c3Req.balanceRemaining ∧
      (recordCollection c3Db 7 c3Req).2 = ⟨201, "Collection recorded successfully"⟩ :=
  (C3_recordCollection_spec c3Db 7 c3Req).2 ⟨2, 9000, 100, 90, .active⟩ rfl

/-- Claim C5: `DeleteAuction` returns 404 when the auction is absent;
rejects with 400 and leaves the store unchanged when the auction's status
is COMPLETED; otherwise deletes exactly that auction row. -/
theorem C5_deleteAuction_spec (db : Db) (id : Nat) :
    (db.auctions.find? (fun a => a.id == id) = none →
      deleteAuction db id = (db, ⟨404, "Auction not found"⟩)) ∧
    (∀ a, db.auctions.find? (fun a => a.id == id) = some a →
      a.status = AuctionStatus.completed →
      deleteAuction db id = (db, ⟨400, "Cannot delete completed auction"⟩)) ∧
    (∀ a, db.auctions.find? (fun a => a.id == id) = some a →
      a.status ≠ AuctionStatus.completed →
      (deleteAuction db id).1.auctions = db.auctions.eraseP (fun b => b.id == id) ∧
      (deleteAuction db id).1.auctions.length + 1 = db.auctions.length ∧
      (deleteAuction db id).2 = ⟨200, "Auction deleted successfully"⟩) := by
  refine ⟨?_, ?_, ?_⟩
  · intro h
    simp only [deleteAuction, h]
  · intro a ha hs
    simp only [deleteAuction, ha]
    rw [if_pos hs]
  · intro a ha hs
    simp only [deleteAuction, ha]
    rw [if_neg hs]
    refine ⟨rfl, ?_, rfl⟩
    have hlen := List.length_eraseP_of_mem (List.mem_of_find?_eq_some ha) (List.find?_some ha)
    have hpos : 0 < db.auctions.length :=
      List.length_pos_of_mem (List.mem_of_find?_eq_some ha)
    simp only [hlen]
    omega

/-- Concrete store with one scheduled auction for the C5 witness. -/
def c5Db : Db :=
  { schemes := [], customers := [], customerSchemes := [], collections := [], passbook := []
    auctions := [{ id := 3, chitSchemeId := 9, status := .scheduled }]
    nextId := 4 }

/-- Witness: the C5 theorem's delete branch on a scheduled auction. -/
theorem C5_deleteAuction_spec_witness :
    (deleteAuction c5Db 3).1.auctions = c5Db.auctions.eraseP (fun b => b.id == 3) ∧
      (deleteAuction c5Db 3).1.auctions.length + 1 = c5Db.auctions.length ∧
      (deleteAuction c5Db 3).2 = ⟨200, "Auction deleted successfully"⟩ :=
  (C5_deleteAuction_spec c5Db 3).2.2 ⟨3, 9, .scheduled⟩ rfl (by decide)

/-- Claim C6: a GENERATED passbook entry can be neither updated nor
deleted (both attempts answer 400 and leave the store untouched), while a
MANUAL entry is updated by the patch and deletable. -/
theorem C6_generated_entries_readonly (db : Db) (id : Nat) (p : PassbookPatch) :
    (∀ e, db.passbook.find? (fun x => x.id == id) = some e →
      e.type = EntryType.generated →
      updatePassbookEntry db id p = (db, ⟨400, "Cannot update generated entries"⟩) ∧
      deletePassbookEntry db id = (db, ⟨400, "Cannot delete generated entries"⟩)) ∧
    (∀ e, db.passbook.find? (fun x => x.id == id) = some e →
      e.type = EntryType.manual →
      (updatePassbookEntry db id p).1.passbook
          = db.passbook.map (fun x => if x.id == id then applyPassbookPatch p x else x) ∧
      (updatePassbookEntry db id p).2 = ⟨200, "Passbook entry updated successfully"⟩ ∧
      (deletePassbookEntry db id).1.passbook = db.passbook.eraseP (fun x => x.id == id) ∧
      (deletePassbookEntry db id).1.passbook.length + 1 = db.passbook.length ∧
      (deletePassbookEntry db id).2 = ⟨200, "Passbook entry deleted successfully"⟩) := by
  constructor
  · intro e he hg
    constructor
    · simp only [updatePassbookEntry, he]
      rw [if_pos hg]
    · simp only [deletePassbookEntry, he]
      rw [if_pos hg]
  · intro e he hm
    have hng : ¬ e.type = EntryType.generated := by
      rw [hm]
      intro h
      cases h
    refine ⟨?_, ?_, ?_, ?_, ?_⟩
    · simp only [updatePassbookEntry, he]
      rw [if_neg hng]
    · simp only [updatePassbookEntry, he]
      rw [if_neg hng]
    · simp only [deletePassbookEntry, he]
      rw [if_neg hng]
    · simp only [deletePassbookEntry, he]
      rw [if_neg hng]
      have hlen := List.length_eraseP_of_mem (List.mem_of_find?_eq_some he) (List.find?_some he)
      have hpos : 0 < db.passbook.length :=
        List.length_pos_of_mem (List.mem_of_find?_eq_some he)
      simp only [hlen]
      omega
    · simp only [deletePassbookEntry, he]
      rw [if_neg hng]

/-- Concrete store with one GENERATED passbook entry for the C6 witness. -/
def c6Db : Db :=
  { schemes := [], customers := [], customerSchemes := [], collections := []
    passbook := [{ id := 4, customerId := 1, month := 9, date := 20, dailyPayment := 100,
                   amount := 100, chittiAmount := 0, type := .generated }]
    auctions := []
    nextId := 5 }

/-- Witness: the C6 theorem's GENERATED branch at a concrete entry. -/
theorem C6_generated_entries_readonly_witness :
    updatePassbookEntry c6Db 4 {} = (c6Db, ⟨400, "Cannot update generated entries"⟩) ∧
      deletePassbookEntry c6Db 4 = (c6Db, ⟨400, "Cannot delete generated entries"⟩) :=
  (C6_generated_entries_readonly c6Db 4 {}).1
    ⟨4, 1, 9, 20, 100, 100, 0, .generated, none⟩ rfl rfl

/-- The passbook row `POST /passbook` inserts. -/
abbrev mkEntry (db : Db) (r : PassbookReq) : PassbookEntry :=
  { id := db.nextId, customerId := r.customerId, month := r.month, date := r.date,
    dailyPayment := r.dailyPayment, amount := r.amount, chittiAmount := r.chittiAmount,
    type := r.type }

/-- Uniqueness invariant of manual passbook entries: for every customer
and month at most one MANUAL entry exists (the route keys the check on the
customer, which determines each enrollment's customer, so per-enrollment
uniqueness follows). -/
def AtMostOneManual (db : Db) : Prop :=
  ∀ cid m, (db.passbook.filter (manualKeyed cid m)).length ≤ 1

/-- Claim C7: creating a second MANUAL passbook entry for the same
customer and month is rejected with 400 and adds no row, and the
at-most-one-MANUAL-per-(customer, month) invariant is preserved by entry
creation. -/
theorem C7_manual_entry_unique (db : Db) (r : PassbookReq) :
    (∀ c e, db.customers.find? (fun x => x.id == r.customerId) = some c →
      db.passbook.find? (manualKeyed r.customerId r.month) = some e →
      createPassbookEntry db r = (db, ⟨400, "Manual entry already exists for this month"⟩)) ∧
    (AtMostOneManual db → AtMostOneManual (createPassbookEntry db r).1) := by
  constructor
  · intro c e hc he
    simp only [createPassbookEntry, hc, he]
  · intro hinv
    rcases hfc : db.customers.find? (fun x => x.id == r.customerId) with _ | c
    · have heq : createPassbookEntry db r = (db, ⟨400, "Customer not found"⟩) := by
        simp only [createPassbookEntry, hfc]
      rw [heq]
      exact hinv
    · rcases hfe : db.passbook.find? (manualKeyed r.customerId r.month) with _ | e
      · have heq : createPassbookEntry db r
            = ({ db with passbook := db.passbook ++ [mkEntry db r], nextId := db.nextId + 1 },
              ⟨201, "Passbook entry created successfully"⟩) := by
          simp only [createPassbookEntry, hfc, hfe]
        rw [heq]
        intro cid m
        show ((db.passbook ++ [mkEntry db r]).filter (manualKeyed cid m)).length ≤ 1
        rw [List.filter_append, List.length_append]
        by_cases hk : manualKeyed cid m (mkEntry db r) = true
        · have hcid : cid = r.customerId ∧ m = r.month := by
            simp only [manualKeyed, mkEntry, Bool.and_eq_true, beq_iff_eq] at hk
            exact ⟨hk.1.1.symm, hk.1.2.symm⟩
          have hnil : db.passbook.filter (manualKeyed cid m) = [] := by
            rw [hcid.1, hcid.2]
            refine List.filter_eq_nil_iff.mpr ?_
            intro a ha
            simpa using List.find?_eq_none.mp hfe a ha
          rw [hnil]
          simp [List.filter_cons, hk]
        · have hb : manualKeyed cid m (mkEntry db r) = false := by
            simpa using hk
          have h2 : (List.filter (manualKeyed cid m) [mkEntry db r]).length = 0 := by
            simp [List.filter_cons, hb]
          rw [h2]
          simpa using hinv cid m
      · have heq : createPassbookEntry db r
            = (db, ⟨400, "Manual entry already exists for this month"⟩) := by
          simp only [createPassbookEntry, hfc, hfe]
        rw [heq]
        exact hinv

/-- Concrete store with an existing MANUAL entry for the C7 witness. -/
def c7Db : Db :=
  { schemes := []
    customers := [{ id := 1, balance := 9000, amountPerDay := 100, duration := 90 }]
    customerSchemes := []
    collections := []
    passbook := [{ id := 4, customerId := 1, month := 9, date := 20, dailyPayment := 100,
                   amount := 100, chittiAmount := 0, type := .manual }]
    auctions := []
    nextId := 5 }

/-- Witness: the C7 duplicate rejection at a concrete store. -/
theorem C7_manual_entry_unique_witness :
    createPassbookEntry c7Db
        { customerId := 1, month := 9, date := 21, dailyPayment := 100, amount := 100,
          chittiAmount := 0 }
      = (c7Db, ⟨400, "Manual entry already exists for this month"⟩) :=
  (C7_manual_entry_unique c7Db _).1 ⟨1, 9000, 100, 90, .active⟩
    ⟨4, 1, 9, 20, 100, 100, 0, .manual, none⟩ rfl (by decide)

/-- The recompute cancels: a patch without a direct `balance` value leaves
the applied row's balance where it was, whether or not the recompute
triggered. -/
theorem balance_effectivePatch (p : CustomerPatch) (ex : Customer) (hb : p.balance = none) :
    (applyCustomerPatch (effectivePatch p ex) ex).balance = ex.balance := by
  unfold effectivePatch applyCustomerPatch
  by_cases htr : (jsTruthyQ p.amountPerDay || jsTruthyQ p.duration) = true
  · rw [if_pos htr]
    show (some (jsOrQ p.amountPerDay ex.amountPerDay * jsOrQ p.duration ex.duration
        - (jsOrQ p.amountPerDay ex.amountPerDay * jsOrQ p.duration ex.duration
          - ex.balance))).getD ex.balance = ex.balance
    simp only [Option.getD_some]
    ring
  · rw [if_neg htr]
    simp [hb]

/-- Concrete one-customer store for the C10 theorems. -/
def c10Db : Db :=
  { schemes := []
    customers := [{ id := 1, balance := 45000, amountPerDay := 500, duration := 90 }]
    customerSchemes := []
    collections := []
    passbook := []
    auctions := []
    nextId := 2 }

/-- Claim C10 is false in its universal part: `UpdateCustomer` does change
the balance for a patch that carries a `balance` value itself — here a
patch of only `balance := 0` moves the stored balance from 45000 to 0. -/
theorem C10_counterexample :
    customerBalance c10Db 1 = some 45000 ∧
      customerBalance (updateCustomer c10Db 1 { balance := some 0 }).1 1 = some 0 ∧
      (0 : ℚ) ≠ 45000 := by
  refine ⟨rfl, rfl, by norm_num⟩

/-- Claim C10 (amended): for every patch that does not itself supply a
`balance` value — in particular every patch changing `amountPerDay` and/or
`duration` — `UpdateCustomer` leaves the customer's balance unchanged,
because the recompute `balance = totalAmount - (totalAmount - oldBalance)`
algebraically cancels; only a patch carrying `balance` overwrites it. -/
theorem C10_update_preserves_balance (db : Db) (cid : Nat) (p : CustomerPatch)
    (hb : p.balance = none) :
    customerBalance (updateCustomer db cid p).1 cid = customerBalance db cid := by
  rcases hfc : db.customers.find? (fun x => x.id == cid) with _ | ex
  · have heq : (updateCustomer db cid p).1 = db := by
      simp only [updateCustomer, hfc]
    rw [heq]
  · have heq : (updateCustomer db cid p).1
        = { db with customers := db.customers.map (fun c =>
            if c.id == cid then applyCustomerPatch (effectivePatch p ex) c else c) } := by
      simp only [updateCustomer, hfc]
    rw [heq]
    unfold customerBalance
    show ((db.customers.map
        (fun c => if c.id == cid then applyCustomerPatch (effectivePatch p ex) c else c)).find?
        (fun c => c.id == cid)).map (fun c => c.balance)
      = (db.customers.find? (fun c => c.id == cid)).map (fun c => c.balance)
    rw [find?_map_ite (fun c : Customer => c.id == cid)
      (applyCustomerPatch (effectivePatch p ex)) (fun _ => rfl), hfc]
    show some (applyCustomerPatch (effectivePatch p ex) ex).balance = some ex.balance
    rw [balance_effectivePatch p ex hb]

/-- Witness: the C10 amended theorem at a concrete store with a patch
doubling `amountPerDay` — the balance stays 45000. -/
theorem C10_update_preserves_balance_witness :
    customerBalance (updateCustomer c10Db 1 { amountPerDay := some 1000 }).1 1
      = customerBalance c10Db 1 :=
  C10_update_preserves_balance c10Db 1 { amountPerDay := some 1000 } rfl

/-- Concrete store with a full scheme whose single member is already
enrolled, for the C4 counterexample. -/
def c4Db : Db :=
  { schemes := [{ id := 5, numberOfMembers := 1, membersEnrolled := 1 }]
    customers := [{ id := 1, balance := 9000, amountPerDay := 100, duration := 90 }]
    customerSchemes := [{ id := 3, customerId := 1, schemeId := 5, amountPerDay := 100,
                          duration := 90, balance := 9000 }]
    collections := []
    passbook := []
    auctions := []
    nextId := 6 }

/-- Claim C4 is false as stated: the capacity check runs before the
duplicate check, so re-enrolling the pair (1, 5) into the now-full scheme
fails with "Chit scheme is full" (CapacityExceeded), not with the
already-enrolled rejection — even though the junction row for the pair
exists. -/
theorem C4_counterexample :
    (c4Db.customerSchemes.find? (fun cs => cs.customerId == 1 && cs.schemeId == 5)).isSome
        = true ∧
      addMemberToScheme c4Db
          { schemeId := 5, customerId := 1, amountPerDay := 100, duration := 90 }
        = (c4Db, ⟨400, "Chit scheme is full"⟩) ∧
      ("Chit scheme is full" : String) ≠ "Customer is already enrolled in this scheme" := by
  refine ⟨rfl, rfl, by decide⟩

/-- Claim C4 (amended): a second Enroll of an already-enrolled
(customerId, schemeId) pair always fails with 400 and never creates a
duplicate junction row; the rejection is AlreadyEnrolled when the scheme
still has spare capacity, but CapacityExceeded ("Chit scheme is full")
when the scheme is already full, because the capacity check runs first. -/
theorem C4_duplicate_enroll_rejected (db : Db) (r : AddMemberReq) (s : ChitScheme)
    (c : Customer) (j : CustomerScheme)
    (hs : db.schemes.find? (fun x => x.id == r.schemeId) = some s)
    (hc : db.customers.find? (fun x => x.id == r.customerId) = some c)
    (hj : db.customerSchemes.find?
        (fun cs => cs.customerId == r.customerId && cs.schemeId == r.schemeId) = some j) :
    (addMemberToScheme db r).1 = db ∧
      (addMemberToScheme db r).2.status = 400 ∧
      (s.membersEnrolled < s.numberOfMembers →
        addMemberToScheme db r = (db, ⟨400, "Customer is already enrolled in this scheme"⟩)) := by
  by_cases hcap : s.membersEnrolled ≥ s.numberOfMembers
  · have heq : addMemberToScheme db r = (db, ⟨400, "Chit scheme is full"⟩) := by
      simp only [addMemberToScheme, hs]
      rw [if_pos hcap]
    refine ⟨by rw [heq], by rw [heq], ?_⟩
    intro hlt
    exact absurd hlt (not_lt.mpr hcap)
  · have heq : addMemberToScheme db r
        = (db, ⟨400, "Customer is already enrolled in this scheme"⟩) := by
      simp only [addMemberToScheme, hs, hc, hj]
      rw [if_neg hcap]
    exact ⟨by rw [heq], by rw [heq], fun _ => heq⟩

/-- Concrete store with spare capacity and an existing enrollment of the
pair (1, 5), for the C4 witness. -/
def c4Db2 : Db :=
  { schemes := [{ id := 5, numberOfMembers := 2, membersEnrolled := 1 }]
    customers := [{ id := 1, balance := 9000, amountPerDay := 100, duration := 90 }]
    customerSchemes := [{ id := 3, customerId := 1, schemeId := 5, amountPerDay := 100,
                          duration := 90, balance := 9000 }]
    collections := []
    passbook := []
    auctions := []
    nextId := 6 }

/-- Witness: the C4 amended theorem at a store with spare capacity — the
duplicate enroll is rejected with the already-enrolled message. -/
theorem C4_duplicate_enroll_rejected_witness :
    (addMemberToScheme c4Db2
        { schemeId := 5, customerId := 1, amountPerDay := 100, duration := 90 }).1 = c4Db2 ∧
      (addMemberToScheme c4Db2
        { schemeId := 5, customerId := 1, amountPerDay := 100, duration := 90 }).2.status
        = 400 ∧
      ((ChitScheme.mk 5 2 1 none none).membersEnrolled
          < (ChitScheme.mk 5 2 1 none none).numberOfMembers →
        addMemberToScheme c4Db2
            { schemeId := 5, customerId := 1, amountPerDay := 100, duration := 90 }
          = (c4Db2, ⟨400, "Customer is already enrolled in this scheme"⟩)) :=
  C4_duplicate_enroll_rejected c4Db2
    { schemeId := 5, customerId := 1, amountPerDay := 100, duration := 90 }
    (ChitScheme.mk 5 2 1 none none)
    ⟨1, 9000, 100, 90, .active⟩
    ⟨3, 1, 5, 100, 90, 9000⟩ rfl rfl rfl

/-- The counter update never changes scheme ids. -/
theorem incSchemes_map_id (sid : Nat) (d : Int) (l : List ChitScheme) :
    (incSchemes sid d l).map (fun s => s.id) = l.map (fun s => s.id) := by
  unfold incSchemes
  rw [List.map_map]
  refine List.map_congr_left ?_
  intro s _
  by_cases h : (s.id == sid) = true
  · rw [Function.comp_apply, if_pos h]
  · rw [Function.comp_apply, if_neg h]

/-- A decrement of any scheme preserves the capacity invariant. -/
theorem schemesOk_dec (sid : Nat) (l : List ChitScheme) (h : SchemesOk l) :
    SchemesOk (incSchemes sid (-1) l) := by
  obtain ⟨hnd, hle⟩ := h
  refine ⟨by rw [incSchemes_map_id]; exact hnd, ?_⟩
  intro t' ht'
  obtain ⟨t, ht, rfl⟩ := List.mem_map.mp ht'
  by_cases hid : (t.id == sid) = true
  · rw [if_pos hid]
    have := hle t ht
    show t.membersEnrolled + (-1) ≤ t.numberOfMembers
    omega
  · rw [if_neg hid]
    exact hle t ht

/-- An increment of a scheme strictly below capacity preserves the
capacity invariant. -/
theorem schemesOk_inc (sid : Nat) (l : List ChitScheme) (s : ChitScheme)
    (h : SchemesOk l) (hfind : l.find? (fun x => x.id == sid) = some s)
    (hlt : s.membersEnrolled < s.numberOfMembers) :
    SchemesOk (incSchemes sid 1 l) := by
  obtain ⟨hnd, hle⟩ := h
  refine ⟨by rw [incSchemes_map_id]; exact hnd, ?_⟩
  intro t' ht'
  obtain ⟨t, ht, rfl⟩ := List.mem_map.mp ht'
  by_cases hid : (t.id == sid) = true
  · rw [if_pos hid]
    have hts : t = s :=
      find?_nodup_unique (fun x => x.id) sid l hnd s hfind t ht (by simpa using hid)
    subst hts
    show t.membersEnrolled + 1 ≤ t.numberOfMembers
    omega
  · rw [if_neg hid]
    exact hle t ht

/-- Folded decrements (the per-scheme decrements of `DELETE /customers`)
preserve the capacity invariant. -/
theorem schemesOk_foldl_dec :
    ∀ (l : List CustomerScheme) (acc : List ChitScheme), SchemesOk acc →
      SchemesOk (l.foldl (fun a cs => incSchemes cs.schemeId (-1) a) acc)
  | [], _, h => h
  | cs :: l, acc, h => schemesOk_foldl_dec l _ (schemesOk_dec cs.schemeId acc h)

/-- The scheme table after the customer-delete foldl, expressed as a fold
of list-level decrements. -/
theorem foldl_dec_schemes :
    ∀ (l : List CustomerScheme) (db : Db),
      (l.foldl (fun d cs => incrementMembers d cs.schemeId (-1)) db).schemes
        = l.foldl (fun acc cs => incSchemes cs.schemeId (-1) acc) db.schemes
  | [], _ => rfl
  | cs :: l, db => foldl_dec_schemes l (incrementMembers db cs.schemeId (-1))

/-- Every enrollment-subsystem step preserves the scheme invariant. -/
theorem schemeInv_stepOp (db : Db) (op : EnrollOp) (h : SchemeInv db) :
    SchemeInv (stepOp db op) := by
  cases op with
  | enrollNew r =>
    show SchemeInv (createCustomer db r).1
    rcases hfs : db.schemes.find? (fun s => s.id == r.schemeId) with _ | s
    · have heq : (createCustomer db r).1 = db := by
        simp only [createCustomer, hfs]
      rw [heq]
      exact h
    · by_cases hcap : s.membersEnrolled ≥ s.numberOfMembers
      · have heq : (createCustomer db r).1 = db := by
          simp only [createCustomer, hfs]
          rw [if_pos hcap]
        rw [heq]
        exact h
      · have heq : (createCustomer db r).1.schemes = incSchemes r.schemeId 1 db.schemes := by
          simp only [createCustomer, hfs]
          rw [if_neg hcap]
          rfl
        show SchemesOk (createCustomer db r).1.schemes
        rw [heq]
        exact schemesOk_inc r.schemeId db.schemes s h hfs (lt_of_not_ge hcap)
  | addMember r =>
    show SchemeInv (addMemberToScheme db r).1
    rcases hfs : db.schemes.find? (fun s => s.id == r.schemeId) with _ | s
    · have heq : (addMemberToScheme db r).1 = db := by
        simp only [addMemberToScheme, hfs]
      rw [heq]
      exact h
    · by_cases hcap : s.membersEnrolled ≥ s.numberOfMembers
      · have heq : (addMemberToScheme db r).1 = db := by
          simp only [addMemberToScheme, hfs]
          rw [if_pos hcap]
        rw [heq]
        exact h
      · rcases hfc : db.customers.find? (fun c => c.id == r.customerId) with _ | c
        · have heq : (addMemberToScheme db r).1 = db := by
            simp only [addMemberToScheme, hfs, hfc]
            rw [if_neg hcap]
          rw [heq]
          exact h
        · rcases hfj : db.customerSchemes.find?
              (fun cs => cs.customerId == r.customerId && cs.schemeId == r.schemeId) with _ | j
          · have heq : (addMemberToScheme db r).1.schemes
                = incSchemes r.schemeId 1 db.schemes := by
              simp only [addMemberToScheme, hfs, hfc, hfj]
              rw [if_neg hcap]
              rfl
            show SchemesOk (addMemberToScheme db r).1.schemes
            rw [heq]
            exact schemesOk_inc r.schemeId db.schemes s h hfs (lt_of_not_ge hcap)
          · have heq : (addMemberToScheme db r).1 = db := by
              simp only [addMemberToScheme, hfs, hfc, hfj]
              rw [if_neg hcap]
            rw [heq]
            exact h
  | unenroll cid =>
    show SchemeInv (deleteCustomer db cid).1
    rcases hfc : db.customers.find? (fun c => c.id == cid) with _ | c
    · have heq : (deleteCustomer db cid).1 = db := by
        simp only [deleteCustomer, hfc]
      rw [heq]
      exact h
    · by_cases hcoll :
        0 < (db.collections.filter (fun r => r.customerId == cid)).length
      · have heq : (deleteCustomer db cid).1 = db := by
          simp only [deleteCustomer, hfc]
          rw [if_pos hcoll]
        rw [heq]
        exact h
      · by_cases hpb : ((db.customerSchemes.filter (fun cs => cs.customerId == cid)).any
            (fun cs =>
              0 < (db.passbook.filter (fun e => e.customerSchemeId == some cs.id)).length))
            = true
        · have heq : (deleteCustomer db cid).1 = db := by
            simp only [deleteCustomer, hfc]
            rw [if_neg hcoll, if_pos hpb]
          rw [heq]
          exact h
        · have heq : (deleteCustomer db cid).1.schemes
              = (db.customerSchemes.filter (fun cs => cs.customerId == cid)).foldl
                  (fun acc cs => incSchemes cs.schemeId (-1) acc) db.schemes := by
            simp only [deleteCustomer, hfc]
            rw [if_neg hcoll, if_neg hpb]
            exact foldl_dec_schemes _ _
          show SchemesOk (deleteCustomer db cid).1.schemes
          rw [heq]
          exact schemesOk_foldl_dec _ db.schemes h

/-- Claim C2: from any store satisfying the scheme invariant, (1) every
sequence of Enroll/Unenroll operations preserves
`membersEnrolled ≤ numberOfMembers` for all schemes, (2) an Enroll against
a full scheme is rejected with 400 "Chit scheme is full" and changes
nothing, and (3) a successful Enroll increments the scheme's
`membersEnrolled` by exactly 1. -/
theorem C2_capacity_invariant (db : Db) (h : SchemeInv db) :
    (∀ ops, SchemeInv (runOps db ops)) ∧
      (∀ r s, db.schemes.find? (fun x => x.id == r.schemeId) = some s →
        s.membersEnrolled ≥ s.numberOfMembers →
        createCustomer db r = (db, ⟨400, "Chit scheme is full"⟩)) ∧
      (∀ r s, db.schemes.find? (fun x => x.id == r.schemeId) = some s →
        s.membersEnrolled < s.numberOfMembers →
        (createCustomer db r).2 = ⟨201, "Customer created successfully"⟩ ∧
        schemeMembers db r.schemeId = some s.membersEnrolled ∧
        schemeMembers (createCustomer db r).1 r.schemeId = some (s.membersEnrolled + 1)) := by
  refine ⟨?_, ?_, ?_⟩
  · have hrun : ∀ ops d, SchemeInv d → SchemeInv (runOps d ops) := by
      intro ops
      induction ops with
      | nil => exact fun d hd => hd
      | cons op ops ih =>
        intro d hd
        exact ih (stepOp d op) (schemeInv_stepOp d op hd)
    exact fun ops => hrun ops db h
  · intro r s hfs hcap
    simp only [createCustomer, hfs]
    rw [if_pos hcap]
  · intro r s hfs hlt
    have hcap : ¬ s.membersEnrolled ≥ s.numberOfMembers := not_le.mpr hlt
    have heq2 : (createCustomer db r).2 = ⟨201, "Customer created successfully"⟩ := by
      simp only [createCustomer, hfs]
      rw [if_neg hcap]
    have heq1 : (createCustomer db r).1.schemes = incSchemes r.schemeId 1 db.schemes := by
      simp only [createCustomer, hfs]
      rw [if_neg hcap]
      rfl
    refine ⟨heq2, ?_, ?_⟩
    · unfold schemeMembers
      rw [hfs]
      rfl
    · unfold schemeMembers
      rw [show (createCustomer db r).1.schemes.find? (fun x => x.id == r.schemeId)
          = (incSchemes r.schemeId 1 db.schemes).find? (fun x => x.id == r.schemeId) by
        rw [heq1]]
      unfold incSchemes
      rw [find?_map_ite (fun x : ChitScheme => x.id == r.schemeId)
        (fun x : ChitScheme => { x with membersEnrolled := x.membersEnrolled + 1 })
        (fun _ => rfl), hfs]
      rfl

/-- Concrete store with a scheme of capacity 2 and one member enrolled,
for the C2 witness. -/
def c2Db : Db :=
  { schemes := [{ id := 5, numberOfMembers := 2, membersEnrolled := 1 }]
    customers := []
    customerSchemes := []
    collections := []
    passbook := []
    auctions := []
    nextId := 0 }

/-- Witness: the C2 theorem's successful-enroll part at a concrete store —
the counter goes from 1 to 2. -/
theorem C2_capacity_invariant_witness :
    (createCustomer c2Db
        { schemeId := 5, amountPerDay := 100, duration := 90 }).2
      = ⟨201, "Customer created successfully"⟩ ∧
      schemeMembers c2Db 5 = some (ChitScheme.mk 5 2 1 none none).membersEnrolled ∧
      schemeMembers (createCustomer c2Db
          { schemeId := 5, amountPerDay := 100, duration := 90 }).1 5
        = some ((ChitScheme.mk 5 2 1 none none).membersEnrolled + 1) :=
  (C2_capacity_invariant c2Db (by constructor <;> decide)).2.2
    { schemeId := 5, amountPerDay := 100, duration := 90 }
    (ChitScheme.mk 5 2 1 none none) rfl (by decide)

/-- Lookup of the bucket for key `k` (JS `groupedData[key]`). -/
def bucketFor (bs : List Bucket) (k : Int) : Option Bucket :=
  bs.find? (fun b => decide (b.key = k))

/-- Unfolding `bucketFor` over a cons cell. -/
theorem bucketFor_cons (b : Bucket) (bs : List Bucket) (k : Int) :
    bucketFor (b :: bs) k = if b.key = k then some b else bucketFor bs k := by
  unfold bucketFor
  by_cases h : b.key = k
  · rw [List.find?_cons_of_pos _ (by simp [h]), if_pos h]
  · rw [List.find?_cons_of_neg _ (by simp [h]), if_neg h]

/-- Effect of folding one row into the buckets, seen through `bucketFor`. -/
theorem bucketFor_bucketUpd (k' : Int) (a : ℚ) (k : Int) :
    ∀ bs : List Bucket,
      bucketFor (bucketUpd k' a bs) k =
        if k' = k then
          match bucketFor bs k with
          | some b => some ⟨b.key, b.totalRevenue + a, b.totalCollections + 1⟩
          | none => some ⟨k', a, 1⟩
        else bucketFor bs k
  | [] => by
    rw [show bucketUpd k' a [] = [⟨k', a, 1⟩] from rfl, bucketFor_cons]
    by_cases hk : k' = k
    · rw [if_pos (show (⟨k', a, 1⟩ : Bucket).key = k from hk), if_pos hk]
      rfl
    · rw [if_neg (show ¬ (⟨k', a, 1⟩ : Bucket).key = k from hk), if_neg hk]
  | b :: bs => by
    rw [show bucketUpd k' a (b :: bs)
        = if b.key = k'
          then (⟨b.key, b.totalRevenue + a, b.totalCollections + 1⟩ : Bucket) :: bs
          else b :: bucketUpd k' a bs from rfl]
    by_cases hb : b.key = k'
    · rw [if_pos hb, bucketFor_cons]
      by_cases hk : k' = k
      · rw [if_pos (show (⟨b.key, b.totalRevenue + a, b.totalCollections + 1⟩ : Bucket).key = k
            from hb.trans hk), if_pos hk, bucketFor_cons, if_pos (hb.trans hk)]
      · rw [if_neg (show ¬ (⟨b.key, b.totalRevenue + a, b.totalCollections + 1⟩ : Bucket).key = k
            from fun h => hk (hb.symm.trans h)), if_neg hk, bucketFor_cons,
          if_neg (show ¬ b.key = k from fun h => hk (hb.symm.trans h))]
    · rw [if_neg hb, bucketFor_cons]
      by_cases hbk : b.key = k
      · have hk : ¬ k' = k := fun h => hb (hbk.trans h.symm)
        rw [if_pos hbk, if_neg hk, bucketFor_cons, if_pos hbk]
      · rw [if_neg hbk, bucketFor_bucketUpd k' a k bs]
        by_cases hk : k' = k
        · rw [if_pos hk, if_pos hk, bucketFor_cons, if_neg hbk]
        · rw [if_neg hk, if_neg hk, bucketFor_cons, if_neg hbk]

/-- Keyed revenue over a cons cell. -/
theorem keyedRevenue_cons (keyOf : Int → Int) (r : RevRow) (rows : List RevRow) (k : Int) :
    keyedRevenue keyOf (r :: rows) k =
      if keyOf r.date = k then r.amountPaid + keyedRevenue keyOf rows k
      else keyedRevenue keyOf rows k := by
  unfold keyedRevenue
  by_cases h : keyOf r.date = k
  · rw [List.filter_cons_of_pos (by simp [h]), List.map_cons, List.sum_cons, if_pos h]
  · rw [List.filter_cons_of_neg (by simp [h]), if_neg h]

/-- Keyed row count over a cons cell. -/
theorem keyedCount_cons (keyOf : Int → Int) (r : RevRow) (rows : List RevRow) (k : Int) :
    keyedCount keyOf (r :: rows) k =
      if keyOf r.date = k then keyedCount keyOf rows k + 1
      else keyedCount keyOf rows k := by
  unfold keyedCount
  by_cases h : keyOf r.date = k
  · rw [List.filter_cons_of_pos (by simp [h]), List.length_cons, if_pos h]
  · rw [List.filter_cons_of_neg (by simp [h]), if_neg h]

/-- The grouping fold on a bucket list already holding key `k`: that
bucket accumulates exactly the keyed revenue and count of the rows. -/
theorem bucketFor_foldl_some (keyOf : Int → Int) :
    ∀ (rows : List RevRow) (acc : List Bucket) (k : Int) (b : Bucket),
      bucketFor acc k = some b →
      bucketFor (rows.foldl (fun bs r => bucketUpd (keyOf r.date) r.amountPaid bs) acc) k
        = some ⟨b.key, b.totalRevenue + keyedRevenue keyOf rows k,
            b.totalCollections + keyedCount keyOf rows k⟩
  | [], acc, k, b, hacc => by
    show bucketFor acc k = _
    rw [hacc]
    show some b = some ⟨b.key, b.totalRevenue + 0, b.totalCollections + 0⟩
    rw [add_zero, add_zero]
  | r :: rows, acc, k, b, hacc => by
    show bucketFor
      (rows.foldl (fun bs x => bucketUpd (keyOf x.date) x.amountPaid bs)
        (bucketUpd (keyOf r.date) r.amountPaid acc)) k = _
    by_cases hk : keyOf r.date = k
    · have hupd : bucketFor (bucketUpd (keyOf r.date) r.amountPaid acc) k
          = some ⟨b.key, b.totalRevenue + r.amountPaid, b.totalCollections + 1⟩ := by
        rw [bucketFor_bucketUpd, if_pos hk, hacc]
      rw [bucketFor_foldl_some keyOf rows _ k _ hupd, keyedRevenue_cons, keyedCount_cons,
        if_pos hk, if_pos hk]
      rcases b with ⟨bk, br, bc⟩
      simp only [Option.some.injEq, Bucket.mk.injEq]
      exact ⟨trivial, by ring, by omega⟩
    · have hupd : bucketFor (bucketUpd (keyOf r.date) r.amountPaid acc) k = some b := by
        rw [bucketFor_bucketUpd, if_neg hk, hacc]
      rw [bucketFor_foldl_some keyOf rows _ k _ hupd, keyedRevenue_cons, keyedCount_cons,
        if_neg hk, if_neg hk]

/-- The grouping fold on a bucket list without key `k`: the bucket for `k`
appears exactly when a row with that key occurs, holding the keyed revenue
and count. -/
theorem bucketFor_foldl_none (keyOf : Int → Int) :
    ∀ (rows : List RevRow) (acc : List Bucket) (k : Int),
      bucketFor acc k = none →
      bucketFor (rows.foldl (fun bs r => bucketUpd (keyOf r.date) r.amountPaid bs) acc) k
        = if keyedCount keyOf rows k = 0 then none
          else some ⟨k, keyedRevenue keyOf rows k, keyedCount keyOf rows k⟩
  | [], acc, k, hacc => by
    show bucketFor acc k = _
    rw [hacc, if_pos (show keyedCount keyOf [] k = 0 from rfl)]
  | r :: rows, acc, k, hacc => by
    show bucketFor
      (rows.foldl (fun bs x => bucketUpd (keyOf x.date) x.amountPaid bs)
        (bucketUpd (keyOf r.date) r.amountPaid acc)) k = _
    by_cases hk : keyOf r.date = k
    · have hupd : bucketFor (bucketUpd (keyOf r.date) r.amountPaid acc) k
          = some ⟨keyOf r.date, r.amountPaid, 1⟩ := by
        rw [bucketFor_bucketUpd, if_pos hk, hacc]
      rw [bucketFor_foldl_some keyOf rows _ k _ hupd, keyedRevenue_cons, keyedCount_cons,
        if_pos hk, if_pos hk, if_neg (Nat.succ_ne_zero _)]
      subst hk
      simp only [Option.some.injEq, Bucket.mk.injEq]
      exact ⟨trivial, trivial, by omega⟩
    · have hupd : bucketFor (bucketUpd (keyOf r.date) r.amountPaid acc) k = none := by
        rw [bucketFor_bucketUpd, if_neg hk, hacc]
      rw [bucketFor_foldl_none keyOf rows _ k hupd, keyedRevenue_cons, keyedCount_cons,
        if_neg hk, if_neg hk]

/-- Per-key characterization of the revenue report's buckets. -/
theorem bucketFor_revenueBuckets (keyOf : Int → Int) (rows : List RevRow) (k : Int) :
    bucketFor (revenueBuckets keyOf rows) k =
      if keyedCount keyOf rows k = 0 then none
      else some ⟨k, keyedRevenue keyOf rows k, keyedCount keyOf rows k⟩ :=
  bucketFor_foldl_none keyOf rows [] k rfl

/-- Folding a row either updates an existing bucket in place or appends a
bucket with the new key at the end (JS object insertion order). -/
theorem keys_bucketUpd (k : Int) (a : ℚ) :
    ∀ bs : List Bucket,
      (bucketUpd k a bs).map (fun b => b.key)
        = if k ∈ bs.map (fun b => b.key) then bs.map (fun b => b.key)
          else bs.map (fun b => b.key) ++ [k]
  | [] => by
    rw [if_neg (by simp)]
    rfl
  | b :: bs => by
    rw [show bucketUpd k a (b :: bs)
        = if b.key = k
          then (⟨b.key, b.totalRevenue + a, b.totalCollections + 1⟩ : Bucket) :: bs
          else b :: bucketUpd k a bs from rfl]
    by_cases hb : b.key = k
    · rw [if_pos hb, List.map_cons, List.map_cons,
        if_pos (show k ∈ b.key :: bs.map (fun b => b.key) from List.mem_cons.mpr (Or.inl hb.symm))]
    · rw [if_neg hb, List.map_cons, List.map_cons, keys_bucketUpd k a bs]
      by_cases hm : k ∈ bs.map (fun b => b.key)
      · rw [if_pos hm, if_pos (List.mem_cons.mpr (Or.inr hm))]
      · rw [if_neg hm,
          if_neg (show ¬ k ∈ b.key :: bs.map (fun b => b.key) from by
            intro h
            rcases List.mem_cons.mp h with h1 | h1
            · exact hb h1.symm
            · exact hm h1),
          List.cons_append]

/-- Folding a row preserves distinctness of the bucket keys. -/
theorem nodup_keys_bucketUpd (k : Int) (a : ℚ) (bs : List Bucket)
    (h : (bs.map (fun b => b.key)).Nodup) :
    ((bucketUpd k a bs).map (fun b => b.key)).Nodup := by
  rw [keys_bucketUpd]
  by_cases hm : k ∈ bs.map (fun b => b.key)
  · rw [if_pos hm]
    exact h
  · rw [if_neg hm]
    simp [List.nodup_append, h, hm]

/-- The revenue grouping always produces buckets with distinct keys. -/
theorem nodup_keys_foldl (keyOf : Int → Int) :
    ∀ (rows : List RevRow) (acc : List Bucket),
      (acc.map (fun b => b.key)).Nodup →
      ((rows.foldl (fun bs r => bucketUpd (keyOf r.date) r.amountPaid bs) acc).map
        (fun b => b.key)).Nodup
  | [], _, h => h
  | r :: rows, acc, h =>
    nodup_keys_foldl keyOf rows _ (nodup_keys_bucketUpd (keyOf r.date) r.amountPaid acc h)

/-- With distinct keys, a bucket list member is what `bucketFor` returns
at its key. -/
theorem mem_bucketFor :
    ∀ (bs : List Bucket), (bs.map (fun b => b.key)).Nodup →
      ∀ b ∈ bs, bucketFor bs b.key = some b
  | [], _, b, hb => by cases hb
  | x :: bs, hnd, b, hb => by
    rw [List.map_cons, List.nodup_cons] at hnd
    rw [bucketFor_cons]
    rcases List.mem_cons.mp hb with h1 | h1
    · subst h1
      rw [if_pos rfl]
    · by_cases hx : x.key = b.key
      · exact absurd (by rw [hx]; exact List.mem_map_of_mem _ h1) hnd.1
      · rw [if_neg hx]
        exact mem_bucketFor bs hnd.2 b h1

/-- Claim C8: with `groupBy=day` the revenue report groups collections by
the UTC day of their date; every bucket's `totalRevenue` is the sum of
`amountPaid` over its rows and `totalCollections` their count; the week
key is the Sunday-aligned start of week; and the concrete 3-day scenario
with amounts 100, 200, 300 yields exactly three buckets, each with one
collection and the corresponding revenue. -/
theorem C8_revenue_grouping :
    (∀ (rows : List RevRow), ∀ b ∈ revenueBuckets dayKey rows,
      b.totalRevenue = keyedRevenue dayKey rows b.key ∧
      b.totalCollections = keyedCount dayKey rows b.key) ∧
      (∀ d : Int, jsGetDay (weekKey d) = 0 ∧ weekKey d ≤ d ∧ d - weekKey d < 7) ∧
      revenueBuckets dayKey [⟨0, 100⟩, ⟨1, 200⟩, ⟨2, 300⟩]
        = [⟨0, 100, 1⟩, ⟨1, 200, 1⟩, ⟨2, 300, 1⟩] := by
  refine ⟨?_, ?_, ?_⟩
  · intro rows b hb
    have hnd : ((revenueBuckets dayKey rows).map (fun b => b.key)).Nodup :=
      nodup_keys_foldl dayKey rows [] (by simp)
    have hf := mem_bucketFor _ hnd b hb
    rw [bucketFor_revenueBuckets] at hf
    by_cases hc : keyedCount dayKey rows b.key = 0
    · rw [if_pos hc] at hf
      cases hf
    · rw [if_neg hc] at hf
      have hb2 := Option.some.inj hf
      rcases b with ⟨bk, br, bc⟩
      injection hb2 with h1 h2 h3
      exact ⟨h2.symm, h3.symm⟩
  · intro d
    simp only [weekKey, jsGetDay]
    refine ⟨?_, ?_, ?_⟩ <;> omega
  · rfl

/-- Witness: the C8 theorem's bucket property at the concrete 3-day
scenario, applied to the first bucket. -/
theorem C8_revenue_grouping_witness :
    (⟨0, 100, 1⟩ : Bucket).totalRevenue
        = keyedRevenue dayKey [⟨0, 100⟩, ⟨1, 200⟩, ⟨2, 300⟩] (⟨0, 100, 1⟩ : Bucket).key ∧
      (⟨0, 100, 1⟩ : Bucket).totalCollections
        = keyedCount dayKey [⟨0, 100⟩, ⟨1, 200⟩, ⟨2, 300⟩] (⟨0, 100, 1⟩ : Bucket).key :=
  C8_revenue_grouping.1 [⟨0, 100⟩, ⟨1, 200⟩, ⟨2, 300⟩] ⟨0, 100, 1⟩ (by decide)

/-- The backlog record the reducer would push for one enrollment pair. -/
def backlogOf (entries : List StatsEntry) (p : StatsCustomer × StatsScheme) : BacklogItem :=
  let v := enrollView entries p
  ⟨p.1.id, p.2.id, v.1, v.2.1, v.1 - v.2.1, v.2.2⟩

/-- The nested customer/scheme double fold equals the fold over the
flattened enrollment pairs. -/
theorem stats_foldl_flat (entries : List StatsEntry) :
    ∀ (custs : List StatsCustomer) (acc : PassbookStats),
      custs.foldl (fun a c => c.schemes.foldl (fun a2 s => statsStep entries a2 c s) a) acc
        = (enrollmentPairs custs).foldl (fun a p => statsStep entries a p.1 p.2) acc
  | [], _ => rfl
  | c :: custs, acc => by
    rw [show enrollmentPairs (c :: custs)
        = c.schemes.map (fun s => (c, s)) ++ enrollmentPairs custs from rfl]
    rw [List.foldl_append, List.foldl_map]
    exact stats_foldl_flat entries custs _

/-- Accumulator-level characterization of the enrollment fold: daily
profit accumulates `actual * effectiveRate` per pair, and backlog records
are appended exactly for the pairs with a positive shortfall. -/
theorem statsStep_foldl (entries : List StatsEntry) :
    ∀ (ps : List (StatsCustomer × StatsScheme)) (acc : PassbookStats),
      (ps.foldl (fun a p => statsStep entries a p.1 p.2) acc).totalDailyProfits
          = acc.totalDailyProfits
            + ((ps.map (enrollView entries)).map (fun v => v.2.1 * v.2.2)).sum ∧
      (ps.foldl (fun a p => statsStep entries a p.1 p.2) acc).backlogs
          = acc.backlogs
            ++ (ps.filter (fun p =>
                decide (0 < (enrollView entries p).1 - (enrollView entries p).2.1))).map
              (backlogOf entries)
  | [], acc => ⟨by simp, by simp⟩
  | p :: ps, acc => by
    obtain ⟨ih1, ih2⟩ := statsStep_foldl entries ps (statsStep entries acc p.1 p.2)
    have hstep1 : (statsStep entries acc p.1 p.2).totalDailyProfits
        = acc.totalDailyProfits + (enrollView entries p).2.1 * (enrollView entries p).2.2 := rfl
    constructor
    · rw [show ((p :: ps).foldl (fun a q => statsStep entries a q.1 q.2) acc)
          = ps.foldl (fun a q => statsStep entries a q.1 q.2)
              (statsStep entries acc p.1 p.2) from rfl]
      rw [ih1, hstep1, List.map_cons, List.map_cons, List.sum_cons]
      ring
    · rw [show ((p :: ps).foldl (fun a q => statsStep entries a q.1 q.2) acc)
          = ps.foldl (fun a q => statsStep entries a q.1 q.2)
              (statsStep entries acc p.1 p.2) from rfl]
      rw [ih2]
      by_cases hpos : 0 < (enrollView entries p).1 - (enrollView entries p).2.1
      · have hstep2 : (statsStep entries acc p.1 p.2).backlogs
            = acc.backlogs ++ [backlogOf entries p] := by
          show (if 0 < (enrollView entries p).1 - (enrollView entries p).2.1
            then acc.backlogs ++ [backlogOf entries p] else acc.backlogs) = _
          rw [if_pos hpos]
        rw [hstep2, List.filter_cons_of_pos (by simpa using hpos), List.map_cons,
          List.append_assoc, List.singleton_append]
      · have hstep2 : (statsStep entries acc p.1 p.2).backlogs = acc.backlogs := by
          show (if 0 < (enrollView entries p).1 - (enrollView entries p).2.1
            then acc.backlogs ++ [backlogOf entries p] else acc.backlogs) = _
          rw [if_neg hpos]
        rw [hstep2, List.filter_cons_of_neg (by simpa using hpos)]

/-- Claim C9 is false as stated: the JS expression
`scheme.commissionRate || 0.05` also replaces a commission rate that is
explicitly set to `0` (zero is falsy, and the validator allows a zero
rate), so an enrollment paying 100 under a zero-rate scheme contributes a
daily profit of `100 * 0.05 = 5`, while the claim's formula — default only
when no rate is set — yields `100 * 0 = 0`. -/
theorem C9_counterexample :
    (passbookStats [⟨1, [⟨10, some 0, some 100⟩]⟩] [⟨1, 10, 100⟩] 2024 0).totalDailyProfits
        = 5 ∧
      specDailyProfits [⟨1, [⟨10, some 0, some 100⟩]⟩] [⟨1, 10, 100⟩] = 0 ∧
      (5 : ℚ) ≠ 0 := by
  refine ⟨?_, ?_, by norm_num⟩
  · norm_num [passbookStats, statsStep, jsOrQ, List.find?]
  · norm_num [specDailyProfits, List.find?]

/-- Claim C9 (amended): the passbook-stats reducer records a backlog item
exactly for the enrollments whose `expectedDaily - actualDaily` is
positive (carrying that difference), accumulates
`totalDailyProfits = Σ actualDaily * commissionRate` where the commission
rate falls back to 0.05 when the scheme's rate is unset OR set to zero
(JS falsy default), and projects
`totalMonthlyProfits = totalDailyProfits * daysInMonth(targetDate)`. -/
theorem C9_passbook_stats (custs : List StatsCustomer) (entries : List StatsEntry)
    (y m : Int) :
    (passbookStats custs entries y m).backlogs
        = ((enrollmentPairs custs).filter (fun p =>
            decide (0 < (enrollView entries p).1 - (enrollView entries p).2.1))).map
            (backlogOf entries) ∧
      (passbookStats custs entries y m).totalDailyProfits
        = (((enrollmentPairs custs).map (enrollView entries)).map
            (fun v => v.2.1 * v.2.2)).sum ∧
      (passbookStats custs entries y m).totalMonthlyProfits
        = (passbookStats custs entries y m).totalDailyProfits * (daysInMonth y m : ℚ) ∧
      (∀ b ∈ (passbookStats custs entries y m).backlogs,
        b.backlogAmount = b.expectedAmount - b.actualAmount ∧ 0 < b.backlogAmount) := by
  have hflat := stats_foldl_flat entries custs ({} : PassbookStats)
  obtain ⟨h1, h2⟩ := statsStep_foldl entries (enrollmentPairs custs) ({} : PassbookStats)
  have hbacklogs : (passbookStats custs entries y m).backlogs
      = ((enrollmentPairs custs).filter (fun p =>
          decide (0 < (enrollView entries p).1 - (enrollView entries p).2.1))).map
          (backlogOf entries) := by
    show (custs.foldl
        (fun a c => c.schemes.foldl (fun a2 s => statsStep entries a2 c s) a)
        ({} : PassbookStats)).backlogs = _
    rw [hflat, h2]
    rfl
  have hdaily : (passbookStats custs entries y m).totalDailyProfits
      = (((enrollmentPairs custs).map (enrollView entries)).map
          (fun v => v.2.1 * v.2.2)).sum := by
    show (custs.foldl
        (fun a c => c.schemes.foldl (fun a2 s => statsStep entries a2 c s) a)
        ({} : PassbookStats)).totalDailyProfits = _
    rw [hflat, h1]
    show 0 + _ = _
    rw [zero_add]
  refine ⟨hbacklogs, hdaily, rfl, ?_⟩
  intro b hb
  rw [hbacklogs] at hb
  obtain ⟨p, hp, rfl⟩ := List.mem_map.mp hb
  have hp2 := List.of_mem_filter hp
  exact ⟨rfl, by simpa [backlogOf, sub_pos] using hp2⟩

/-- Witness: the C9 amended theorem at one enrollment expecting 100 with
no entry — the single backlog record carries `100 - 0 = 100 > 0`. -/
theorem C9_passbook_stats_witness :
    (backlogOf [] (⟨1, [⟨10, none, some 100⟩]⟩, ⟨10, none, some 100⟩)).backlogAmount
        = (backlogOf [] (⟨1, [⟨10, none, some 100⟩]⟩, ⟨10, none, some 100⟩)).expectedAmount
          - (backlogOf [] (⟨1, [⟨10, none, some 100⟩]⟩, ⟨10, none, some 100⟩)).actualAmount ∧
      0 < (backlogOf [] (⟨1, [⟨10, none, some 100⟩]⟩, ⟨10, none, some 100⟩)).backlogAmount :=
  (C9_passbook_stats [⟨1, [⟨10, none, some 100⟩]⟩] [] 2024 0).2.2.2
    (backlogOf [] (⟨1, [⟨10, none, some 100⟩]⟩, ⟨10, none, some 100⟩))
    (by norm_num [passbookStats, statsStep, jsOrQ, backlogOf, enrollView])

end BhavaniChit
